import Mathlib

/-!
Verification of the active-requests association and endpoint-templating
engine (src/active_requests/active.py and src/active_requests/interpolation.py).

Python strings are modelled as lists of characters, records as ordered
association lists (Python dicts), the HTTP transport as an explicit function
from requests to responses, and fallible operations as functions returning an
Except value together with the list of HTTP requests they issued.
-/

deriving instance DecidableEq for Except

/-- Python strings, modelled as lists of characters (ASCII fragment). -/
abbrev Chars := List Char

/-- A scalar field value stored in a record.  Python str() is modelled by
Value.render. -/
inductive Value where
  | vint (n : Int)
  | vstr (s : Chars)
deriving DecidableEq

/-- Python str() applied to a field value. -/
def Value.render : Value → Chars
  | .vint n => (toString n).toList
  | .vstr s => s

/-- A record's field mapping: a Python dict in insertion order. -/
abbrev Fields := List (Chars × Value)

/-- Python dict lookup d.get(k), modelled on an association list (first
binding wins; merge and registry operations below keep keys unique or shadow
older bindings at the front, matching dict overwrite semantics). -/
def alistGet {α : Type} : List (Chars × α) → Chars → Option α
  | [], _ => none
  | (k, v) :: rest, key => if k = key then some v else alistGet rest key

/-- A word character for the regex class w used by interpolate: ASCII
letter, digit, or underscore (the embedding restricts to ASCII inputs, where
the Python regex w-class coincides with this predicate). -/
def isWordChar (c : Char) : Bool := c.isAlphanum || c == '_'

/-- One token of a path template: a literal character, or a placeholder,
i.e. a colon followed by a maximal nonempty run of word characters.  The
hole tokens are exactly the matches of the regex colon-w-plus that
interpolation.py substitutes, scanned left to right and non-overlapping. -/
inductive Tok where
  | lit (c : Char)
  | hole (name : Chars)
deriving DecidableEq

/-- One step of the right-to-left template scan: the first component
accumulates the maximal word-character run immediately to the right of the
current position; a colon in front of a nonempty run forms a placeholder,
any other character flushes the run back to literals. -/
def tokStep (c : Char) (st : Chars × List Tok) : Chars × List Tok :=
  if isWordChar c then (c :: st.1, st.2)
  else if c == ':' then
    match st.1 with
    | [] => ([], Tok.lit ':' :: st.2)
    | r => ([], Tok.hole r :: st.2)
  else ([], Tok.lit c :: (st.1.map Tok.lit ++ st.2))

/-- Decompose a template into literal characters and placeholders.  This
computes exactly the decomposition induced by the leftmost, non-overlapping
matches of the placeholder regex in interpolation.py: a placeholder is a
colon followed by a maximal nonempty run of word characters. -/
def tokenize (t : Chars) : List Tok :=
  ((t.foldr tokStep ([], [])).1.map Tok.lit) ++ (t.foldr tokStep ([], [])).2

/-- The error raised by interpolate: Python KeyError carrying the missing
placeholder name (the source formats it into the message
Key ... not found in values; the embedding keeps the name structurally). -/
inductive InterpError where
  | keyNotFound (key : Chars)
deriving DecidableEq

/-- Substitution pass over the token list: literals are copied, each
placeholder is replaced by str() of the mapped value, and the first missing
key (in template order) raises, exactly as the replace callback in
interpolation.py does. -/
def interpTokens (m : Fields) : List Tok → Except InterpError Chars
  | [] => .ok []
  | .lit c :: ts =>
    match interpTokens m ts with
    | .ok r => .ok (c :: r)
    | .error e => .error e
  | .hole n :: ts =>
    match alistGet m n with
    | none => .error (.keyNotFound n)
    | some v =>
      match interpTokens m ts with
      | .ok r => .ok (v.render ++ r)
      | .error e => .error e

/-- interpolate from src/active_requests/interpolation.py: substitute every
placeholder of the template by str() of the corresponding keyword value,
raising KeyError on the first placeholder whose key is absent. -/
def interpolate (t : Chars) (m : Fields) : Except InterpError Chars :=
  interpTokens m (tokenize t)

/-- The placeholder names of a token list, in template order. -/
def holesOf : List Tok → List Chars
  | [] => []
  | .hole n :: ts => n :: holesOf ts
  | .lit _ :: ts => holesOf ts

/-- The placeholder names occurring in a template, in order. -/
def placeholders (t : Chars) : List Chars := holesOf (tokenize t)

/-- Specification-side rendering of one token: a literal stays itself, a
placeholder becomes the mapped value verbatim (empty if absent). -/
def renderTok (m : Fields) : Tok → Chars
  | .lit c => [c]
  | .hole n =>
    match alistGet m n with
    | some v => v.render
    | none => []

/-- Specification-side rendering of a token list: concatenation of the
rendered tokens, each substituted value inserted verbatim. -/
def renderTokens (m : Fields) : List Tok → Chars
  | [] => []
  | tk :: ts => renderTok m tk ++ renderTokens m ts

/-- Uppercase ASCII letter, the regex class A-Z used by
inflection.underscore. -/
def isUpperAZ (c : Char) : Bool := 'A' ≤ c && c ≤ 'Z'

/-- Lowercase ASCII letter, the regex class a-z. -/
def isLowerAZ (c : Char) : Bool := 'a' ≤ c && c ≤ 'z'

/-- ASCII digit, the regex class d. -/
def isDigit09 (c : Char) : Bool := '0' ≤ c && c ≤ '9'

/-- First rewrite of inflection.underscore (external library dependency,
modelled from its source): the substitution inserting an underscore between
group one, a run of uppercase letters, and group two, an uppercase letter
followed by a lowercase letter.  Scanning leftmost and non-overlapping, this
inserts one underscore between each adjacent uppercase pair whose second
member is immediately followed by a lowercase letter, which the three
character window below computes. -/
def underscoreSub1 : Chars → Chars
  | c1 :: c2 :: c3 :: rest =>
    if isUpperAZ c1 && isUpperAZ c2 && isLowerAZ c3 then
      c1 :: '_' :: underscoreSub1 (c2 :: c3 :: rest)
    else c1 :: underscoreSub1 (c2 :: c3 :: rest)
  | l => l

/-- Second rewrite of inflection.underscore: the substitution inserting an
underscore between a lowercase letter or digit and an uppercase letter.  The
two character classes are disjoint, so the leftmost non-overlapping matches
are exactly all adjacent such pairs. -/
def underscoreSub2 : Chars → Chars
  | c1 :: c2 :: rest =>
    if (isLowerAZ c1 || isDigit09 c1) && isUpperAZ c2 then
      c1 :: '_' :: underscoreSub2 (c2 :: rest)
    else c1 :: underscoreSub2 (c2 :: rest)
  | l => l

/-- ASCII lowercasing, modelling Python str.lower on the ASCII fragment. -/
def toLowerAZ (c : Char) : Char := if isUpperAZ c then c.toLower else c

/-- inflection.underscore (external library dependency, modelled from its
source): the two camel-case splitting rewrites, then hyphens become
underscores, then lowercase. -/
def underscore (w : Chars) : Chars :=
  ((underscoreSub2 (underscoreSub1 w)).map
    (fun c => if c = '-' then '_' else c)).map toLowerAZ

/-- inflection.pluralize (external library dependency), modelled at the
interface for regular nouns only: when no irregular, uncountable or special
suffix rule of the library applies — true of every name the claims evaluate
it at, such as comment, author and post — the catch-all rule appends s. -/
def pluralize (w : Chars) : Chars := w ++ [ 's' ]

/-- Resource classes are the values stored in the registry.  An ActiveClass
holds the effective class attributes each declared Active subclass ends up
with after Active.init-subclass runs: base url, name, collection path,
identifier field and computed endpoint. -/
structure ActiveClass where
  url : Chars
  name : Chars
  path : Chars
  uid : Chars
  endpoint : Chars
deriving DecidableEq

/-- The process-wide registry _registry of active.py: a mapping from
normalized names to resource classes.  Dict assignment is modelled by
shadowing at the front of an association list. -/
abbrev Registry := List (Chars × ActiveClass)

/-- register from active.py: store the class under the underscored name,
overwriting any prior registration for that key. -/
def register (reg : Registry) (name : Chars) (cls : ActiveClass) : Registry :=
  (underscore name, cls) :: reg

/-- resolve from active.py: look the underscored name up in the registry,
returning none when absent. -/
def resolve (reg : Registry) (name : Chars) : Option ActiveClass :=
  alistGet reg (underscore name)

/-- HTTP method of a request issued through the session. -/
inductive Method where
  | get
  | post
  | put
  | delete
deriving DecidableEq

/-- The decoded JSON body of a response: an array of objects, or a single
object (decoding itself is delegated to the transport collaborator). -/
inductive RespBody where
  | arr (rows : List Fields)
  | obj (fields : Fields)
deriving DecidableEq

/-- A transport response: status code and decoded JSON body. -/
structure Response where
  status : Nat
  body : RespBody
deriving DecidableEq

/-- A request as issued by the engine: method, absolute url, query
parameters and optional JSON object body. -/
structure Request where
  method : Method
  url : Chars
  params : Fields
  body : Option Fields
deriving DecidableEq

/-- The transport collaborator (the requests Session), as an oracle from
requests to responses. -/
abbrev Transport := Request → Response

/-- The errors an operation can raise: the KeyError escaping interpolate,
the HTTPError from raise_for_status carrying the status, the TypeError from
calling vars on None, and a decode mismatch when the body shape does not fit
the record construction performed on it. -/
inductive ActiveError where
  | keyError (e : InterpError)
  | httpStatus (status : Nat)
  | typeError
  | decodeError
deriving DecidableEq

/-- requests Response.raise_for_status raises exactly for client and server
error statuses, 400 through 599. -/
def raiseForStatus (s : Nat) : Bool := 400 ≤ s && s ≤ 599

/-- urllib.parse.urljoin, modelled at the interface for the case exercised
here: an absolute base url with no path component joined with a relative
path, which appends the path after a slash. -/
def urljoin (base rel : Chars) : Chars := base ++ '/' :: rel

/-- The ActiveBase default base url. -/
def defaultUrl : Chars := ("http://localhost").toList

/-- The ActiveBase default identifier field. -/
def defaultUid : Chars := ("id").toList

/-- Active.init-subclass for a plain subclass declared with no explicit
attributes and no url or session argument: the name is the underscored class
name, the path its pluralization, the uid and url the inherited defaults;
the class is registered under its name and the endpoint is the join of url
and path. -/
def declareActive (reg : Registry) (pyName : Chars) : ActiveClass × Registry :=
  let name := underscore pyName
  let path := pluralize name
  let cls : ActiveClass :=
    { url := defaultUrl, name := name, path := path, uid := defaultUid,
      endpoint := urljoin defaultUrl path }
  (cls, register reg name cls)

/-- Active.all: GET the class endpoint, raise for status, and build one
record per element of the decoded array. -/
def Active.all (cls : ActiveClass) (t : Transport) :
    Except ActiveError (List Fields) × List Request :=
  let req : Request := ⟨.get, cls.endpoint, [], none⟩
  let resp := t req
  if raiseForStatus resp.status then (.error (.httpStatus resp.status), [req])
  else
    match resp.body with
    | .arr rows => (.ok rows, [req])
    | .obj _ => (.error .decodeError, [req])

/-- Active.where (named where_op since where is reserved in Lean): GET the
class endpoint with the conditions as query parameters and build records
from the decoded array.  The source performs no status check here. -/
def Active.where_op (cls : ActiveClass) (conds : Fields) (t : Transport) :
    Except ActiveError (List Fields) × List Request :=
  let req : Request := ⟨.get, cls.endpoint, conds, none⟩
  let resp := t req
  match resp.body with
  | .arr rows => (.ok rows, [req])
  | .obj _ => (.error .decodeError, [req])

/-- Active.find: GET endpoint slash uid, raise for status, and build one
record from the decoded object. -/
def Active.find (cls : ActiveClass) (uidArg : Chars) (t : Transport) :
    Except ActiveError Fields × List Request :=
  let req : Request := ⟨.get, cls.endpoint ++ '/' :: uidArg, [], none⟩
  let resp := t req
  if raiseForStatus resp.status then (.error (.httpStatus resp.status), [req])
  else
    match resp.body with
    | .obj fs => (.ok fs, [req])
    | .arr _ => (.error .decodeError, [req])

/-- Active.create: POST the given fields to the class endpoint, raise for
status, and build the record from the decoded response object. -/
def Active.create (cls : ActiveClass) (kw : Fields) (t : Transport) :
    Except ActiveError Fields × List Request :=
  let req : Request := ⟨.post, cls.endpoint, [], some kw⟩
  let resp := t req
  if raiseForStatus resp.status then (.error (.httpStatus resp.status), [req])
  else
    match resp.body with
    | .obj fs => (.ok fs, [req])
    | .arr _ => (.error .decodeError, [req])

/-- The per-instance endpoint template endpoint/:uid shared by save and
destroy in active.py. -/
def instanceTemplate (cls : ActiveClass) : Chars :=
  cls.endpoint ++ '/' :: ':' :: cls.uid

/-- Active.save: interpolate the per-instance endpoint template against the
record's own fields (raising before any request when that fails), then PUT
the full field mapping as the body and raise for status. -/
def Active.save (cls : ActiveClass) (self : Fields) (t : Transport) :
    Except ActiveError Unit × List Request :=
  match interpolate (instanceTemplate cls) self with
  | .error e => (.error (.keyError e), [])
  | .ok endp =>
    let req : Request := ⟨.put, endp, [], some self⟩
    let resp := t req
    (if raiseForStatus resp.status then .error (.httpStatus resp.status)
     else .ok (), [req])

/-- Active.destroy: interpolate the per-instance endpoint template against
the record's own fields (raising before any request when that fails), then
DELETE it and raise for status. -/
def Active.destroy (cls : ActiveClass) (self : Fields) (t : Transport) :
    Except ActiveError Unit × List Request :=
  match interpolate (instanceTemplate cls) self with
  | .error e => (.error (.keyError e), [])
  | .ok endp =>
    let req : Request := ⟨.delete, endp, [], none⟩
    let resp := t req
    (if raiseForStatus resp.status then .error (.httpStatus resp.status)
     else .ok (), [req])

/-- Python dict item assignment d with key set to v: overwrite in place
keeping insertion order, or append a new key at the end. -/
def setField : Fields → Chars → Value → Fields
  | [], k, v => [(k, v)]
  | (k2, v2) :: rest, k, v =>
    if k2 = k then (k, v) :: rest else (k2, v2) :: setField rest k v

/-- Python dict.update as performed by super().update in Active.update:
merge the keyword arguments into the mapping left to right. -/
def mergeFields (self : Fields) (kw : Fields) : Fields :=
  kw.foldl (fun acc p => setField acc p.1 p.2) self

/-- Active.update: merge the keyword arguments into the in-memory field
mapping, then invoke save on the merged record.  The merged mapping is the
first component, whatever the outcome of the save. -/
def Active.update (cls : ActiveClass) (self : Fields) (kw : Fields)
    (t : Transport) : Fields × (Except ActiveError Unit × List Request) :=
  let merged := mergeFields self kw
  (merged, Active.save cls merged t)

/-- The value a relationship read returns: a typed record when the target
name resolved in the registry, otherwise the raw decoded body. -/
inductive AssocResult where
  | typed (cls : ActiveClass) (fields : Fields)
  | raw (fields : Fields)
deriving DecidableEq

/-- The class-level has_one endpoint computed by HasOneAssociation for a
bare string declaration (no options): the join of the class url with the
template path/:uid/name, where the accessor name is the underscored target
name. -/
def hasOneEndpoint (cls : ActiveClass) (other : Chars) : Chars :=
  urljoin cls.url (cls.path ++ '/' :: ':' :: cls.uid ++ '/' :: underscore other)

/-- The has_one accessor reader (fget of HasOneAssociation for a bare string
declaration): interpolate the class-level endpoint against the record's own
fields, GET it, raise for status, then return a typed record when the target
name resolves in the registry and the raw decoded body otherwise. -/
def hasOneGet (cls : ActiveClass) (other : Chars) (reg : Registry)
    (self : Fields) (t : Transport) :
    Except ActiveError AssocResult × List Request :=
  match interpolate (hasOneEndpoint cls other) self with
  | .error e => (.error (.keyError e), [])
  | .ok endp =>
    let req : Request := ⟨.get, endp, [], none⟩
    let resp := t req
    if raiseForStatus resp.status then (.error (.httpStatus resp.status), [req])
    else
      match resp.body with
      | .obj result =>
        match resolve reg (underscore other) with
        | some c => (.ok (.typed c result), [req])
        | none => (.ok (.raw result), [req])
      | .arr _ => (.error .decodeError, [req])

/-- The belongs_to path template computed by BelongsToAssociation for a bare
string declaration: plural of the underscored target name, slash, a
placeholder for name underscore uid. -/
def belongsToPath (cls : ActiveClass) (other : Chars) : Chars :=
  pluralize (underscore other) ++ '/' :: ':' :: (underscore other ++ '_' :: cls.uid)

/-- The belongs_to accessor reader (fget of BelongsToAssociation for a bare
string declaration): interpolate the path template against the record's own
fields, join it onto the record url, interpolate the joined endpoint a
second time, GET it, raise for status, then return a typed record when the
target name resolves in the registry and the raw decoded body otherwise. -/
def belongsToGet (cls : ActiveClass) (other : Chars) (reg : Registry)
    (self : Fields) (t : Transport) :
    Except ActiveError AssocResult × List Request :=
  match interpolate (belongsToPath cls other) self with
  | .error e => (.error (.keyError e), [])
  | .ok path =>
    match interpolate (urljoin cls.url path) self with
    | .error e => (.error (.keyError e), [])
    | .ok endp =>
      let req : Request := ⟨.get, endp, [], none⟩
      let resp := t req
      if raiseForStatus resp.status then
        (.error (.httpStatus resp.status), [req])
      else
        match resp.body with
        | .obj result =>
          match resolve reg (underscore other) with
          | some c => (.ok (.typed c result), [req])
          | none => (.ok (.raw result), [req])
        | .arr _ => (.error .decodeError, [req])

/-- HasManyAssociation for a bare string declaration, run at record
construction: underscore and pluralize the target name, build and
interpolate the scoped path template path/:uid/name against the record's
fields, then synthesize the child class.  When the target name is not
registered the source calls vars on None, a TypeError.  When it is, the
synthesized namespace is vars of the target with url, session, name and path
overridden — the target's endpoint attribute is carried over unchanged, and
since the synthesized class therefore has an endpoint attribute already,
Active.init-subclass keeps it instead of recomputing it from the scoped
path.  The child is registered under the pluralized accessor name. -/
def hasManyAssociate (cls : ActiveClass) (self : Fields) (other : Chars)
    (reg : Registry) : Except ActiveError (ActiveClass × Registry) :=
  let otherU := underscore other
  let hasManyName := pluralize otherU
  let tmpl := cls.path ++ '/' :: ':' :: cls.uid ++ '/' :: hasManyName
  match interpolate tmpl self with
  | .error e => .error (.keyError e)
  | .ok scopedPath =>
    match resolve reg otherU with
    | none => .error .typeError
    | some target =>
      let child : ActiveClass :=
        { url := cls.url, name := hasManyName, path := scopedPath,
          uid := target.uid, endpoint := target.endpoint }
      .ok (child, register reg hasManyName child)

/-- The Comment resource type of the test scenarios, declared first into an
empty registry. -/
def commentC : ActiveClass := (declareActive [] ("Comment").toList).1

/-- The registry after declaring Comment. -/
def regComment : Registry := (declareActive [] ("Comment").toList).2

/-- The Post resource type, declared after Comment. -/
def postC : ActiveClass := (declareActive regComment ("Post").toList).1

/-- The registry after declaring Comment and then Post. -/
def regCP : Registry := (declareActive regComment ("Post").toList).2

/-- The Book resource type, declared alone into an empty registry. -/
def bookC : ActiveClass := (declareActive [] ("Book").toList).1

/-- The child resource type the has_many scenario of C2 synthesizes: its
path is the parent-scoped collection path, but its endpoint is carried over
from the registered Comment class. -/
def c2Child : ActiveClass :=
  { url := defaultUrl, name := ("comments").toList,
    path := ("posts/7/comments").toList, uid := defaultUid,
    endpoint := ("http://localhost/comments").toList }

/-- A stub transport answering 404 with an empty object body. -/
def t404obj : Transport := fun _ => ⟨404, .obj []⟩

/-- A stub transport answering 500 with an empty object body. -/
def t500 : Transport := fun _ => ⟨500, .obj []⟩

/-- A stub transport answering 404 with a one-element array body. -/
def t404rows : Transport :=
  fun _ => ⟨404, .arr [[(("key").toList, Value.vstr ("value").toList)]]⟩

/-- A stub transport answering 200 with a single object body. -/
def t200author : Transport := fun _ => ⟨200, .obj [(("id").toList, Value.vint 1)]⟩

/-- A stub transport answering 200 with an empty array body. -/
def t200empty : Transport := fun _ => ⟨200, .arr []⟩

/-- The record fields of the C6 scenario: a Comment with identifier 1. -/
def c6Self : Fields := [(("id").toList, Value.vint 1)]

/-- The update arguments of the C6 scenario: text set to x. -/
def c6Kw : Fields := [(("text").toList, Value.vstr ("x").toList)]

-- Sanity checks of the template scanner against the source regex.
example : tokenize ("posts/:id").toList =
    [Tok.lit 'p', Tok.lit 'o', Tok.lit 's', Tok.lit 't', Tok.lit 's',
     Tok.lit '/', Tok.hole ("id").toList] := by decide

example : interpolate ("/posts/:id/comments/:comment_id").toList
    [(("id").toList, Value.vint 1), (("comment_id").toList, Value.vint 1)] =
    .ok ("/posts/1/comments/1").toList := by decide

example : interpolate ("a::b").toList [(("b").toList, Value.vint 2)] =
    .ok ("a:2").toList := by decide

example : interpolate ("x:missing").toList [] =
    .error (.keyNotFound ("missing").toList) := by decide

-- Sanity checks of the inflection model and of class declaration.
example : underscore ("UserProfile").toList = ("user_profile").toList := by decide

example : underscore ("HTMLParserX").toList = ("html_parser_x").toList := by decide

example : underscore ("comment").toList = ("comment").toList := by decide

example : commentC =
    { url := defaultUrl, name := ("comment").toList, path := ("comments").toList,
      uid := defaultUid, endpoint := ("http://localhost/comments").toList } := by decide

/-- If every placeholder of the token list has a binding, substitution
succeeds and produces exactly the rendered token list. -/
theorem interpTokens_ok_of_all (m : Fields) (ts : List Tok)
    (h : ∀ n ∈ holesOf ts, (alistGet m n).isSome) :
    interpTokens m ts = .ok (renderTokens m ts) := by
  induction ts with
  | nil => rfl
  | cons tk ts ih =>
    cases tk with
    | lit c =>
      have h' : ∀ n ∈ holesOf ts, (alistGet m n).isSome := by
        intro n hn
        exact h n (by simpa [holesOf] using hn)
      simp [interpTokens, renderTokens, renderTok, ih h']
    | hole n =>
      have hn : (alistGet m n).isSome := h n (by simp [holesOf])
      cases hv : alistGet m n with
      | none => rw [hv] at hn; simp at hn
      | some v =>
        have h' : ∀ k ∈ holesOf ts, (alistGet m k).isSome := by
          intro k hk
          exact h k (by simp [holesOf, hk])
        simp [interpTokens, hv, renderTokens, renderTok, ih h']

/-- If some placeholder of the token list has no binding, substitution fails
with the key error for the leftmost unbound placeholder. -/
theorem interpTokens_err_of_missing (m : Fields) (ts : List Tok) (n : Chars)
    (hmem : n ∈ holesOf ts) (hnone : alistGet m n = none) :
    ∃ k, k ∈ holesOf ts ∧ alistGet m k = none ∧
      interpTokens m ts = .error (.keyNotFound k) := by
  induction ts with
  | nil => simp [holesOf] at hmem
  | cons tk ts ih =>
    cases tk with
    | lit c =>
      have hmem' : n ∈ holesOf ts := by simpa [holesOf] using hmem
      obtain ⟨k, hk1, hk2, hk3⟩ := ih hmem'
      exact ⟨k, by simp [holesOf, hk1], hk2, by simp [interpTokens, hk3]⟩
    | hole p =>
      cases hv : alistGet m p with
      | none => exact ⟨p, by simp [holesOf], hv, by simp [interpTokens, hv]⟩
      | some v =>
        have hmem' : n ∈ holesOf ts := by
          have : n = p ∨ n ∈ holesOf ts := by simpa [holesOf] using hmem
          rcases this with h1 | h2
          · subst h1; rw [hv] at hnone; cases hnone
          · exact h2
        obtain ⟨k, hk1, hk2, hk3⟩ := ih hmem'
        exact ⟨k, by simp [holesOf, hk1], hk2, by simp [interpTokens, hv, hk3]⟩

/-- A successful substitution result is exactly the rendered token list,
each value inserted verbatim. -/
theorem interpTokens_ok_inv (m : Fields) (ts : List Tok) (r : Chars)
    (h : interpTokens m ts = .ok r) : r = renderTokens m ts := by
  induction ts generalizing r with
  | nil =>
    simp [interpTokens] at h
    simp [renderTokens, ← h]
  | cons tk ts ih =>
    cases tk with
    | lit c =>
      cases hr : interpTokens m ts with
      | ok r2 =>
        simp [interpTokens, hr] at h
        simp [renderTokens, renderTok, ← h, ih r2 hr]
      | error e => simp [interpTokens, hr] at h
    | hole n =>
      cases hv : alistGet m n with
      | none => simp [interpTokens, hv] at h
      | some v =>
        cases hr : interpTokens m ts with
        | ok r2 =>
          simp [interpTokens, hv, hr] at h
          simp [renderTokens, renderTok, hv, ← h, ih r2 hr]
        | error e => simp [interpTokens, hv, hr] at h

/-- C3: for every template t and field mapping m that binds every
placeholder occurring in t, interpolate succeeds (never raises), and its
result is exactly the rendering of the tokens of t with every placeholder of
t substituted — so no placeholder occurrence that was present in t remains
unreplaced in the result.  Determinism is the final conjunct: the result is
unique.  (A substituted value is inserted verbatim, so text shaped like a
placeholder inside a value is new text contributed by m, not a remaining
placeholder of t; see the single-pass theorem for that aspect.) -/
theorem c3_interpolate_total (t : Chars) (m : Fields)
    (h : ∀ n ∈ placeholders t, (alistGet m n).isSome) :
    ∃ r, interpolate t m = .ok r ∧ r = renderTokens m (tokenize t) ∧
      ∀ r2, interpolate t m = .ok r2 → r2 = r := by
  refine ⟨renderTokens m (tokenize t), ?_, rfl, ?_⟩
  · exact interpTokens_ok_of_all m (tokenize t) h
  · intro r2 h2
    exact interpTokens_ok_inv m (tokenize t) r2 h2

/-- Witness for C3 at a concrete template and mapping. -/
theorem c3_interpolate_total_witness :
    ∃ r, interpolate ("posts/:id").toList [(("id").toList, Value.vint 7)] = .ok r ∧
      r = renderTokens [(("id").toList, Value.vint 7)] (tokenize ("posts/:id").toList) ∧
      ∀ r2, interpolate ("posts/:id").toList [(("id").toList, Value.vint 7)] = .ok r2 → r2 = r :=
  c3_interpolate_total ("posts/:id").toList [(("id").toList, Value.vint 7)] (by decide)

/-- C4: for every template t containing a placeholder whose name is unbound
in m, interpolate fails with a key error naming an unbound placeholder of t
(the leftmost one, as the replace callback raises eagerly per placeholder),
and no partially substituted result is observable: the call returns no ok
value at all. -/
theorem c4_interpolate_missing (t : Chars) (m : Fields) (n : Chars)
    (hmem : n ∈ placeholders t) (hnone : alistGet m n = none) :
    ∃ k, k ∈ placeholders t ∧ alistGet m k = none ∧
      interpolate t m = .error (.keyNotFound k) ∧
      ∀ r, interpolate t m ≠ .ok r := by
  obtain ⟨k, hk1, hk2, hk3⟩ := interpTokens_err_of_missing m (tokenize t) n hmem hnone
  refine ⟨k, hk1, hk2, hk3, ?_⟩
  intro r hr
  rw [interpolate] at hr
  rw [hr] at hk3
  cases hk3

/-- Witness for C4 at a concrete template with an unbound placeholder. -/
theorem c4_interpolate_missing_witness :
    ∃ k, k ∈ placeholders ("posts/:id/comments/:comment_id").toList ∧
      alistGet [(("id").toList, Value.vint 7)] k = none ∧
      interpolate ("posts/:id/comments/:comment_id").toList
        [(("id").toList, Value.vint 7)] = .error (.keyNotFound k) ∧
      ∀ r, interpolate ("posts/:id/comments/:comment_id").toList
        [(("id").toList, Value.vint 7)] ≠ .ok r :=
  c4_interpolate_missing ("posts/:id/comments/:comment_id").toList
    [(("id").toList, Value.vint 7)] ("comment_id").toList (by decide) (by decide)

/-- C10: interpolate performs a single substitution pass: a successful
result is exactly the rendering of the tokens of the original template, with
each substituted value inserted verbatim — in particular, text of the form
colon-name inside a substituted value appears verbatim in the result and is
not expanded again within the call. -/
theorem c10_single_pass (t : Chars) (m : Fields) (r : Chars)
    (h : interpolate t m = .ok r) : r = renderTokens m (tokenize t) :=
  interpTokens_ok_inv m (tokenize t) r h

/-- Witness for C10: the value bound to a contains the text of placeholder
b, yet the result keeps that text verbatim instead of expanding it to the
binding of b. -/
theorem c10_single_pass_witness :
    interpolate (":a").toList
      [(("a").toList, Value.vstr (":b").toList), (("b").toList, Value.vstr ("X").toList)] =
      .ok ((":b").toList) ∧
    (":b").toList = renderTokens
      [(("a").toList, Value.vstr (":b").toList), (("b").toList, Value.vstr ("X").toList)]
      (tokenize (":a").toList) :=
  ⟨by decide,
   c10_single_pass (":a").toList
     [(("a").toList, Value.vstr (":b").toList), (("b").toList, Value.vstr ("X").toList)]
     (":b").toList (by decide)⟩

/-- C5: registering a class under name n and then resolving any variant v
that normalizes to the same underscored key — in particular any underscored
or camel-case variant of n — returns that class, and re-registering n with a
different class makes every subsequent resolution of such a variant return
the new class (last write wins). -/
theorem c5_registry (reg : Registry) (n v : Chars) (T : ActiveClass)
    (h : underscore v = underscore n) :
    resolve (register reg n T) v = some T ∧
      ∀ T2, resolve (register (register reg n T) n T2) v = some T2 := by
  constructor
  · simp [resolve, register, alistGet, h]
  · intro T2
    simp [resolve, register, alistGet, h]

/-- Witness for C5: registering under user_profile and resolving the
camel-case variant UserProfile, then re-registering and resolving again. -/
theorem c5_registry_witness :
    resolve (register [] ("user_profile").toList
        ⟨("u").toList, ("user_profile").toList, ("user_profiles").toList,
          ("id").toList, ("e").toList⟩) ("UserProfile").toList =
      some ⟨("u").toList, ("user_profile").toList, ("user_profiles").toList,
        ("id").toList, ("e").toList⟩ ∧
    resolve (register (register [] ("user_profile").toList
        ⟨("u").toList, ("user_profile").toList, ("user_profiles").toList,
          ("id").toList, ("e").toList⟩) ("user_profile").toList
        ⟨("u2").toList, ("n2").toList, ("p2").toList,
          ("id").toList, ("e2").toList⟩) ("UserProfile").toList =
      some ⟨("u2").toList, ("n2").toList, ("p2").toList,
        ("id").toList, ("e2").toList⟩ :=
  ⟨(c5_registry [] ("user_profile").toList ("UserProfile").toList _ (by decide)).1,
   (c5_registry [] ("user_profile").toList ("UserProfile").toList
     ⟨("u").toList, ("user_profile").toList, ("user_profiles").toList,
       ("id").toList, ("e").toList⟩ (by decide)).2
     ⟨("u2").toList, ("n2").toList, ("p2").toList, ("id").toList, ("e2").toList⟩⟩

/-- C1 counterexample: a has_one read whose transport answers 404 raises the
HTTP status error instead of yielding an absence result — the accessor calls
raise_for_status unconditionally, so there is no 404 relaxation in the
code. -/
theorem c1_counterexample :
    hasOneGet postC ("profile").toList [] [(("id").toList, Value.vint 7)] t404obj =
      (.error (.httpStatus 404),
       [⟨.get, ("http://localhost/posts/7/profile").toList, [], none⟩]) := by
  decide

/-- C1 (amended): reading a has_one accessor raises an HTTP status error for
every response status in 400 through 599 — including 404, which yields no
absence result — while statuses below 400 are not treated as errors and the
read returns a result. -/
theorem c1_amended (cls : ActiveClass) (other : Chars) (reg : Registry)
    (self : Fields) (t : Transport) (u : Chars) (s : Nat) (flds : Fields)
    (hu : interpolate (hasOneEndpoint cls other) self = .ok u)
    (ht : t ⟨.get, u, [], none⟩ = ⟨s, .obj flds⟩) :
    (400 ≤ s → s ≤ 599 →
      hasOneGet cls other reg self t =
        (.error (.httpStatus s), [⟨.get, u, [], none⟩])) ∧
    (s < 400 →
      ∃ res, hasOneGet cls other reg self t = (.ok res, [⟨.get, u, [], none⟩])) := by
  constructor
  · intro h4 h5
    have hrs : raiseForStatus s = true := by
      simp [raiseForStatus]
      omega
    simp [hasOneGet, hu, ht, hrs]
  · intro hlt
    have hrs : raiseForStatus s = false := by
      simp [raiseForStatus]
      omega
    cases hres : resolve reg (underscore other) with
    | none => exact ⟨.raw flds, by simp [hasOneGet, hu, ht, hrs, hres]⟩
    | some c => exact ⟨.typed c flds, by simp [hasOneGet, hu, ht, hrs, hres]⟩

/-- Witness for the amended C1 at status 500. -/
theorem c1_amended_witness :
    hasOneGet postC ("profile").toList [] [(("id").toList, Value.vint 7)] t500 =
      (.error (.httpStatus 500),
       [⟨.get, ("http://localhost/posts/7/profile").toList, [], none⟩]) :=
  (c1_amended postC ("profile").toList [] [(("id").toList, Value.vint 7)] t500
    ("http://localhost/posts/7/profile").toList 500 [] (by decide) rfl).1
    (by decide) (by decide)

/-- C2: with Comment registered and a Post parent whose identifier is 7, the
synthesized has_many child type carries the parent-scoped collection path
posts/7/comments, but calling all on it GETs the endpoint inherited from
vars of the Comment class — http://localhost/comments — not the
parent-scoped path, because Active.init-subclass skips recomputing an
endpoint attribute that is already present in the synthesized namespace. -/
theorem c2_code_bug :
    hasManyAssociate postC [(("id").toList, Value.vint 7)] ("comment").toList regCP =
      .ok (c2Child, register regCP ("comments").toList c2Child) ∧
    c2Child.path = ("posts/7/comments").toList ∧
    (Active.all c2Child t200empty).2 =
      [⟨.get, ("http://localhost/comments").toList, [], none⟩] ∧
    (Active.all c2Child t200empty).2 ≠
      [⟨.get, urljoin c2Child.url c2Child.path, [], none⟩] := by
  refine ⟨by decide, by decide, by decide, by decide⟩

/-- C6: update merges the keyword arguments into the in-memory field mapping
and then saves, issuing one PUT of the full merged field set to the
interpolated per-instance endpoint; the conclusion holds for every
transport, so when the PUT fails the merged mapping is unchanged — the merge
is not rolled back. -/
theorem c6_update_merge_save (cls : ActiveClass) (self kw : Fields)
    (t : Transport) (u : Chars)
    (hu : interpolate (instanceTemplate cls) (mergeFields self kw) = .ok u) :
    (Active.update cls self kw t).1 = mergeFields self kw ∧
    (Active.update cls self kw t).2.2 =
      [⟨.put, u, [], some (mergeFields self kw)⟩] := by
  constructor
  · rfl
  · simp [Active.update, Active.save, hu]

/-- Witness for C6: Comment with identifier 1 updated with text x against a
transport failing with 500 — the PUT goes to comments slash 1 with the full
merged body, the save fails, and the merged mapping keeps text set to x. -/
theorem c6_update_merge_save_witness :
    ((Active.update commentC c6Self c6Kw t500).1 = mergeFields c6Self c6Kw ∧
     (Active.update commentC c6Self c6Kw t500).2.2 =
       [⟨.put, ("http://localhost/comments/1").toList, [],
         some (mergeFields c6Self c6Kw)⟩]) ∧
    mergeFields c6Self c6Kw =
      [(("id").toList, Value.vint 1), (("text").toList, Value.vstr ("x").toList)] ∧
    (Active.update commentC c6Self c6Kw t500).2.1 = .error (.httpStatus 500) :=
  ⟨c6_update_merge_save commentC c6Self c6Kw t500
     ("http://localhost/comments/1").toList (by decide),
   by decide, by decide⟩

/-- C7 counterexample: where with a stub transport answering 404 and a JSON
array body returns records built from the body instead of raising — the
source performs no status check in where at all. -/
theorem c7_counterexample :
    Active.where_op commentC [] t404rows =
      (.ok [[(("key").toList, Value.vstr ("value").toList)]],
       [⟨.get, ("http://localhost/comments").toList, [], none⟩]) := by
  decide

/-- C7 (amended): all, find and create treat exactly the statuses 400
through 599 as errors (raising and building no records from such
responses); statuses outside that range — including non-2xx statuses below
400 — are not treated as errors by them, and given a body of the shape each
decodes (an array for all, an object for find and create) they return the
constructed records; where performs no status check at all: given an array
body it returns records built from the body whatever the status.  The
transport tA answers with the array body, the transport tO with the object
body, both at the same status. -/
theorem c7_amended (cls : ActiveClass) (tA tO : Transport) (s : Nat)
    (rows : List Fields) (fs : Fields) (conds : Fields) (uidArg : Chars)
    (kw : Fields)
    (hstatA : ∀ r, (tA r).status = s)
    (hbodyA : ∀ r, (tA r).body = .arr rows)
    (hstatO : ∀ r, (tO r).status = s)
    (hbodyO : ∀ r, (tO r).body = .obj fs) :
    (400 ≤ s → s ≤ 599 →
      (Active.all cls tA).1 = .error (.httpStatus s) ∧
      (Active.find cls uidArg tO).1 = .error (.httpStatus s) ∧
      (Active.create cls kw tO).1 = .error (.httpStatus s)) ∧
    (s < 400 ∨ 600 ≤ s →
      (Active.all cls tA).1 = .ok rows ∧
      (Active.find cls uidArg tO).1 = .ok fs ∧
      (Active.create cls kw tO).1 = .ok fs) ∧
    (Active.where_op cls conds tA).1 = .ok rows := by
  refine ⟨?_, ?_, ?_⟩
  · intro h4 h5
    have hrs : raiseForStatus s = true := by
      simp [raiseForStatus]
      omega
    refine ⟨?_, ?_, ?_⟩
    · simp [Active.all, hstatA, hrs]
    · simp [Active.find, hstatO, hrs]
    · simp [Active.create, hstatO, hrs]
  · intro hout
    have hrs : raiseForStatus s = false := by
      simp [raiseForStatus]
      omega
    refine ⟨?_, ?_, ?_⟩
    · simp [Active.all, hstatA, hbodyA, hrs]
    · simp [Active.find, hstatO, hbodyO, hrs]
    · simp [Active.create, hstatO, hbodyO, hrs]
  · simp [Active.where_op, hbodyA]

/-- Witness for the amended C7: at status 404 all, find and create raise
while where returns the records decoded from the body; at status 200 find
returns the decoded record. -/
theorem c7_amended_witness :
    (Active.all commentC t404rows).1 = .error (.httpStatus 404) ∧
    (Active.find commentC ("1").toList t404obj).1 = .error (.httpStatus 404) ∧
    (Active.create commentC [] t404obj).1 = .error (.httpStatus 404) ∧
    (Active.where_op commentC [] t404rows).1 =
      .ok [[(("key").toList, Value.vstr ("value").toList)]] ∧
    (Active.find commentC ("1").toList t200author).1 =
      .ok [(("id").toList, Value.vint 1)] := by
  have h1 := c7_amended commentC t404rows t404obj 404
    [[(("key").toList, Value.vstr ("value").toList)]] [] [] (("1").toList) []
    (fun _ => rfl) (fun _ => rfl) (fun _ => rfl) (fun _ => rfl)
  have h2 := c7_amended commentC t200empty t200author 200
    [] [(("id").toList, Value.vint 1)] [] (("1").toList) []
    (fun _ => rfl) (fun _ => rfl) (fun _ => rfl) (fun _ => rfl)
  obtain ⟨he, _, hw⟩ := h1
  obtain ⟨ha, hb, hc⟩ := he (by decide) (by decide)
  obtain ⟨_, hok, _⟩ := h2
  exact ⟨ha, hb, hc, hw, (hok (Or.inl (by decide))).2.1⟩

/-- C8 counterexample: a belongs_to read whose string target author is not
registered does not raise a resolution error — it issues the GET and returns
the raw decoded body untyped. -/
theorem c8_counterexample :
    belongsToGet bookC ("author").toList []
      [(("author_id").toList, Value.vint 1)] t200author =
      (.ok (.raw [(("id").toList, Value.vint 1)]),
       [⟨.get, ("http://localhost/authors/1").toList, [], none⟩]) := by
  decide

/-- C8 (amended): for both belongs_to and has_one, reading the accessor when
the string target is unregistered at access time raises no resolution error:
the HTTP request is still issued, and on a successful response the accessor
returns the raw decoded body instead of a typed record. -/
theorem c8_amended (cls : ActiveClass) (other : Chars) (reg : Registry)
    (self1 self2 : Fields) (t1 t2 : Transport) (p u1 u2 : Chars)
    (s1 s2 : Nat) (f1 f2 : Fields)
    (hres : resolve reg (underscore other) = none)
    (hp : interpolate (belongsToPath cls other) self1 = .ok p)
    (hu1 : interpolate (urljoin cls.url p) self1 = .ok u1)
    (ht1 : t1 ⟨.get, u1, [], none⟩ = ⟨s1, .obj f1⟩)
    (hs1 : s1 < 400)
    (hu2 : interpolate (hasOneEndpoint cls other) self2 = .ok u2)
    (ht2 : t2 ⟨.get, u2, [], none⟩ = ⟨s2, .obj f2⟩)
    (hs2 : s2 < 400) :
    belongsToGet cls other reg self1 t1 =
      (.ok (.raw f1), [⟨.get, u1, [], none⟩]) ∧
    hasOneGet cls other reg self2 t2 =
      (.ok (.raw f2), [⟨.get, u2, [], none⟩]) := by
  have hrs1 : raiseForStatus s1 = false := by
    simp [raiseForStatus]
    omega
  have hrs2 : raiseForStatus s2 = false := by
    simp [raiseForStatus]
    omega
  constructor
  · simp [belongsToGet, hp, hu1, ht1, hrs1, hres]
  · simp [hasOneGet, hu2, ht2, hrs2, hres]

/-- Witness for the amended C8: Book with unregistered target author — both
accessors return the raw body of the 200 response. -/
theorem c8_amended_witness :
    belongsToGet bookC ("author").toList []
      [(("author_id").toList, Value.vint 2)] t200author =
      (.ok (.raw [(("id").toList, Value.vint 1)]),
       [⟨.get, ("http://localhost/authors/2").toList, [], none⟩]) ∧
    hasOneGet bookC ("author").toList []
      [(("id").toList, Value.vint 3)] t200author =
      (.ok (.raw [(("id").toList, Value.vint 1)]),
       [⟨.get, ("http://localhost/books/3/author").toList, [], none⟩]) :=
  c8_amended bookC ("author").toList []
    [(("author_id").toList, Value.vint 2)] [(("id").toList, Value.vint 3)]
    t200author t200author
    ("authors/2").toList ("http://localhost/authors/2").toList
    ("http://localhost/books/3/author").toList 200 200
    [(("id").toList, Value.vint 1)] [(("id").toList, Value.vint 1)]
    (by decide) (by decide) (by decide) rfl (by decide) (by decide) rfl (by decide)

/-- C9: for a record whose field mapping lacks a binding for the identifier
field — which occurs as a placeholder of the per-instance endpoint template,
as it does for every ordinary identifier such as the default id — both save
and destroy raise the interpolation key error and issue no HTTP request at
all; neither operation writes to the field mapping. -/
theorem c9_missing_uid (cls : ActiveClass) (self : Fields) (t : Transport)
    (h1 : cls.uid ∈ placeholders (instanceTemplate cls))
    (h2 : alistGet self cls.uid = none) :
    (∃ e, Active.save cls self t = (.error (.keyError e), [])) ∧
    (∃ e, Active.destroy cls self t = (.error (.keyError e), [])) := by
  obtain ⟨k, hk1, hk2, hk3⟩ :=
    interpTokens_err_of_missing self (tokenize (instanceTemplate cls)) cls.uid h1 h2
  have hi : interpolate (instanceTemplate cls) self = .error (.keyNotFound k) := hk3
  constructor
  · exact ⟨.keyNotFound k, by simp [Active.save, hi]⟩
  · exact ⟨.keyNotFound k, by simp [Active.destroy, hi]⟩

/-- Witness for C9: a Comment record without an id binding — save and
destroy both fail with the key error and issue no request. -/
theorem c9_missing_uid_witness :
    (∃ e, Active.save commentC [(("text").toList, Value.vstr ("hi").toList)] t500 =
      (.error (.keyError e), [])) ∧
    (∃ e, Active.destroy commentC [(("text").toList, Value.vstr ("hi").toList)] t500 =
      (.error (.keyError e), [])) :=
  c9_missing_uid commentC [(("text").toList, Value.vstr ("hi").toList)] t500
    (by decide) (by decide)
